import Mathlib

/-!
Verification of the virgo4-availability-ws specification against the source.

Go strings are embedded as lists of characters (`Str`) so that every string
operation used by the service (lower-casing, substring search, splitting,
trimming) is an executable Lean function with decidable equations.  Each
definition below mirrors one function or type of the repository; the file
then proves or refutes the frozen claims about them.

Modelling conventions:
- a Go slice-index expression that can fault at runtime is embedded through
  Option, with none standing for the runtime panic;
- the Go map used by the reserve grouping code is embedded as an association
  list in key-insertion order (Go map iteration order is unspecified; no
  claim settled here depends on the order of distinct keys);
- JSON decoding of the stored-availability blob is abstracted as an explicit
  decode function parameter.
-/

/-- Characters of a Go string; the embedding represents strings as character
lists so every operation is executable and decidable. -/
abbrev Str := List Char

/-- ASCII lower-casing of one character, as strings.ToLower acts on the
characters appearing in this service's data. -/
def goLowerChar (c : Char) : Char :=
  if 65 ≤ c.toNat ∧ c.toNat ≤ 90 then Char.ofNat (c.toNat + 32) else c

/-- Embeds strings.ToLower. -/
def goLower (s : Str) : Str := s.map goLowerChar

/-- Whitespace class of the Go regexp escape for spaces (space, tab, newline,
vertical tab, form feed, carriage return). -/
def goIsSpace (c : Char) : Bool :=
  c == ' ' || c == '\t' || c == '\n' || c == '\r' || c == Char.ofNat 11 || c == Char.ofNat 12

/-- Boolean test that the first list is a prefix of the second. -/
def isPrefixB : Str → Str → Bool
  | [], _ => true
  | _ :: _, [] => false
  | a :: as, b :: bs => a == b && isPrefixB as bs

/-- Embeds strings.Index: index of the first occurrence of the needle in the
haystack, none when absent. -/
def goIndexOf (hay needle : Str) : Option Nat :=
  match hay with
  | [] => if needle = [] then some 0 else none
  | c :: rest =>
    if isPrefixB needle (c :: rest) then some 0
    else (goIndexOf rest needle).map (· + 1)

/-- Boolean substring test (does the needle occur in the haystack). -/
def containsSub : Str → Str → Bool
  | [], needle => needle.isEmpty
  | c :: rest, needle => isPrefixB needle (c :: rest) || containsSub rest needle

/-- Embeds the Go helper contains of the availability source: case-insensitive
match of the literal pattern inside any element of the list (the patterns the
service passes contain no regexp metacharacters). -/
def contains (arr : List Str) (s : Str) : Bool :=
  arr.any (fun a => containsSub (goLower a) (goLower s))

/-- Embeds strings.Split on the pipe separator used by reserve tags. -/
def splitPipe : Str → List Str
  | [] => [[]]
  | c :: rest =>
    match splitPipe rest with
    | [] => [[]]
    | h :: t => if c = '|' then [] :: h :: t else (c :: h) :: t

/-- Embeds strings.TrimSpace. -/
def goTrimSpace (s : Str) : Str :=
  ((s.dropWhile goIsSpace).reverse.dropWhile goIsSpace).reverse

/-- Embeds strings.Join. -/
def goJoin (sep : Str) (xs : List Str) : Str := List.intercalate sep xs

/-- Retention test shared by both grouping functions of reserves.go:
strings.Index(strings.ToLower(key), strings.ToLower(query)) == 0. -/
def matchesQuery (tgt key : Str) : Bool :=
  goIndexOf (goLower key) (goLower tgt) == some 0

/-! Data model (types of the availability source). -/

/-- Map display info attached to an item. -/
structure MapInfo where
  ID : Str
  Name : Str
  MapURL : Str
deriving DecidableEq

/-- Item of the availability document. -/
structure Item where
  Barcode : Str
  OnShelf : Bool
  Unavailable : Bool
  Notice : Str
  Library : Str
  LibraryID : Str
  CurrentLocation : Str
  HomeLocationID : Str
  CallNumber : Str
  Volume : Str
  SCNotes : Str
  Map : MapInfo
deriving DecidableEq

/-- Selectable item of a RequestOption. -/
structure ItemOption where
  Label : Str
  Barcode : Str
  SCNotes : Str
  Library : Str
  Location : Str
  LocationID : Str
  Notice : Str
deriving DecidableEq

/-- Category of request a user can make (field Type of the Go struct is
spelled type here). -/
structure RequestOption where
  type : Str
  Label : Str
  Description : Str
  CreateURL : Str
  SignInRequired : Bool
  StreamingReserve : Bool
  ItemOptions : List ItemOption
deriving DecidableEq

/-- Related item bound with this work. -/
structure BoundWithItem where
  IsParent : Bool
  TitleID : Str
  CallNumber : Str
  Title : Str
  Author : Str
deriving DecidableEq

/-- Availability document (the inner struct of AvailabilityData, flattened). -/
structure AvailabilityData where
  ID : Str
  Display : List (Str × Str)
  Items : List Item
  RequestOptions : List RequestOption
  BoundWith : List BoundWithItem
deriving DecidableEq

/-- Catalog record projection of the search index. -/
structure SolrDocument where
  AnonAvailability : List Str
  Author : List Str
  Barcode : List Str
  CallNumber : List Str
  Copy : Str
  Description : List Str
  Edition : Str
  HathiETAS : List Str
  Issue : Str
  Format : List Str
  ID : Str
  ISBN : List Str
  ISSN : List Str
  Library : List Str
  Location : List Str
  LocalNotes : List Str
  Medium : List Str
  Pool : List Str
  PublicationDate : Str
  PublishedLocation : List Str
  PublisherName : List Str
  SCAvailability : Str
  Source : List Str
  Title : List Str
  URL : List Str
  Volume : Str
  WorkTypes : List Str
deriving DecidableEq

/-- Body of the catalog search response consumed by getSolrDoc. -/
structure SolrResponseBody where
  NumFound : Int
  Docs : List SolrDocument
deriving DecidableEq

/-- Embeds getSolrDoc of the availability source: after logging any anomaly it
evaluates Docs[0] unconditionally, so an empty document list is a runtime
panic (none); otherwise the first document is used whatever NumFound says. -/
def getSolrDoc (resp : SolrResponseBody) : Option SolrDocument :=
  resp.Docs.head?

/-- Constant streaming-video request option appended by the streaming rule. -/
def videoReserveOption : RequestOption :=
  { type := ("videoReserve").toList
    Label := ("Video reserve request").toList
    Description := ("Request a video reserve for streaming").toList
    CreateURL := []
    SignInRequired := true
    StreamingReserve := true
    ItemOptions := [] }

/-- Trigger condition of the streaming-video rule, shared with the reserve
validation endpoint.  Go evaluates solrDoc.Pool[0] before anything else, so an
empty pool list is a runtime panic (none) even when the Avalon alternative
would hold. -/
def streamingVideoSignal (doc : SolrDocument) : Option Bool :=
  match doc.Pool with
  | [] => none
  | p :: _ =>
    some ((decide (p = ("video").toList) && contains doc.Location (("Internet materials").toList))
      || contains doc.Source (("Avalon").toList))

/-- Embeds addStreamingVideoReserve. -/
def addStreamingVideoReserve (doc : SolrDocument) (result : AvailabilityData) :
    Option AvailabilityData :=
  match streamingVideoSignal doc with
  | none => none
  | some b =>
    if b then some { result with RequestOptions := result.RequestOptions ++ [videoReserveOption] }
    else some result

/-- Embeds processSCAvailabilityStored; json.Unmarshal of the stored blob is
abstracted as the decode parameter (covering both success and the logged
decode-failure case, which contributes no items). -/
def processSCAvailabilityStored (decode : Str → List Item) (result : AvailabilityData)
    (doc : SolrDocument) : AvailabilityData :=
  if doc.SCAvailability = [] then result
  else { result with ID := doc.ID, Items := result.Items ++ decode doc.SCAvailability }

/-- Embeds the regexp replacement of the anchored pattern (caret)\s*SPECIAL\s+COLLECTIONS:\s+
by the empty string: when the pattern matches a prefix of the note the matched
prefix is removed, otherwise the note is unchanged. -/
def stripPrefix1 (s : Str) : Str :=
  let t0 := s.dropWhile goIsSpace
  if isPrefixB (("SPECIAL").toList) t0 then
    let t1 := t0.drop 7
    match t1 with
    | c :: _ =>
      if goIsSpace c then
        let t2 := t1.dropWhile goIsSpace
        if isPrefixB (("COLLECTIONS:").toList) t2 then
          let t3 := t2.drop 12
          match t3 with
          | c2 :: _ => if goIsSpace c2 then t3.dropWhile goIsSpace else s
          | [] => s
        else s
      else s
    | [] => s
  else s

/-- Embeds the regexp replacement of the anchored long collection-name prefix
by the abbreviation. -/
def stripPrefix2 (s : Str) : Str :=
  let t0 := s.dropWhile goIsSpace
  let lit := ("Harrison Small Special Collections,").toList
  if isPrefixB lit t0 then (("H. Small,").toList) ++ t0.drop lit.length else s

/-- Cleaning of one catalog local note inside createAeonItemOptions: both
prefix replacements, trim, then the semicolon-newline terminator the loop
appends after every note. -/
def cleanLocalNote (n : Str) : Str :=
  goTrimSpace (stripPrefix2 (stripPrefix1 n)) ++ ((";\n").toList)

/-- Hard truncation applied to the accumulated notes. -/
def truncate999 (s : Str) : Str := if s.length > 999 then s.take 999 else s

/-- Embeds the notes computation inside createAeonItemOptions. -/
def aeonNotes (doc : SolrDocument) (item : Item) : Str :=
  if item.SCNotes.length > 0 then item.SCNotes
  else if doc.LocalNotes.length > 0 then
    truncate999 (doc.LocalNotes.foldl (fun acc n => acc ++ cleanLocalNote n) [])
  else ("(no location notes)").toList

/-- One Aeon item choice as built by the loop of createAeonItemOptions. -/
def aeonItemOption (doc : SolrDocument) (item : Item) : ItemOption :=
  { Barcode := item.Barcode
    Label := item.CallNumber
    Location := item.HomeLocationID
    LocationID := []
    Library := item.Library
    SCNotes := aeonNotes doc item
    Notice := item.Notice }

/-- Embeds createAeonItemOptions: the loop keeps items whose library id is the
special-collections code, or every item when the record carries stored
availability. -/
def createAeonItemOptions (result : AvailabilityData) (doc : SolrDocument) : List ItemOption :=
  result.Items.foldl
    (fun acc item =>
      if item.LibraryID = (("SPEC-COLL").toList) ∨ doc.SCAvailability ≠ [] then
        acc ++ [aeonItemOption doc item]
      else acc) []

/-- Amended specification of the Aeon notes string: item-level note when
non-empty; otherwise the cleaned local notes, each followed by a
semicolon-newline terminator (also after the last note), truncated to 999
characters; otherwise the fixed placeholder. -/
def aeonNotesAmended (doc : SolrDocument) (item : Item) : Str :=
  if item.SCNotes ≠ [] then item.SCNotes
  else if doc.LocalNotes ≠ [] then
    truncate999 (doc.LocalNotes.map cleanLocalNote).flatten
  else ("(no location notes)").toList

/-- Notes computation exactly as the claim words it: cleaned local notes
concatenated with a semicolon-space-newline separator between entries and no
trailing separator. -/
def aeonNotesClaimed (doc : SolrDocument) (item : Item) : Str :=
  if item.SCNotes ≠ [] then item.SCNotes
  else if doc.LocalNotes ≠ [] then
    truncate999 (List.intercalate (("; \n").toList)
      (doc.LocalNotes.map (fun n => goTrimSpace (stripPrefix2 (stripPrefix1 n)))))
  else ("(no location notes)").toList

/-- Long legal notice carried by the emergency-access option. -/
def etasDescription : Str :=
  ("Use the link above to read this item online through the <a target=\"_blank\" href=\"https://www.library.virginia.edu/services/etas\">Emergency Temporary Access Service.</a><p>Because of U.S. Copyright law, any item made available online through ETAS cannot be also physically circulated. Buttons above reflect any requests that can be made for this item. <a href=\"https://www.library.virginia.edu/news/covid-19/\" target=\"blank\">Read more about digital and physical access during COVID-19.</a></p>").toList

/-- Emergency-access option built by removeETASRequestOptions; link and label
are populated only when the record carries at least one URL. -/
def hathiOption (doc : SolrDocument) : RequestOption :=
  let base : RequestOption :=
    { type := ("directLink").toList
      Label := []
      Description := etasDescription
      CreateURL := []
      SignInRequired := false
      StreamingReserve := false
      ItemOptions := [] }
  match doc.URL with
  | [] => base
  | u :: _ => { base with CreateURL := u, Label := ("Read via HathiTrust").toList }

/-- Hold-type test used by the emergency-access override. -/
def holdB (o : RequestOption) : Bool := decide (o.type = ("hold").toList)

/-- Index kept by the Go loop that scans for an option of type hold without
breaking: the last matching index, if any. -/
def findLastIdx {α : Type} (p : α → Bool) : List α → Option Nat
  | [] => none
  | a :: rest =>
    match findLastIdx p rest with
    | some j => some (j + 1)
    | none => if p a then some 0 else none

/-- Embeds removeETASRequestOptions: when the record carries a non-empty
emergency-access field, replace the (last) hold option in place or append the
emergency option, then keep only special-collections items. -/
def removeETASRequestOptions (doc : SolrDocument) (result : AvailabilityData) :
    AvailabilityData :=
  if doc.HathiETAS = [] then result
  else
    let hathi := hathiOption doc
    let opts :=
      match findLastIdx holdB result.RequestOptions with
      | some i => result.RequestOptions.set i hathi
      | none => result.RequestOptions ++ [hathi]
    { result with
        RequestOptions := opts
        Items := result.Items.filter (fun v => decide (v.LibraryID = (("SPEC-COLL").toList))) }

/-! Reserve grouping engine (reserves.go). -/

/-- Solr hit of the course-reserves search. -/
structure SolrReservesHit where
  ID : Str
  Title : List Str
  Author : List Str
  CallNumber : List Str
  Library : List Str
  ReserveInfo : List Str
deriving DecidableEq

/-- Item of a reserve group. -/
structure ReserveItem where
  ID : Str
  Title : Str
  Author : Str
  CallNumber : Str
  Library : Str
deriving DecidableEq

/-- Courses with their items, grouped under one instructor. -/
structure CourseItems where
  CourseName : Str
  CourseID : Str
  Items : List ReserveItem
deriving DecidableEq

/-- Result entry of the instructor-name search. -/
structure InstructorSearchResponse where
  InstructorName : Str
  Courses : List CourseItems
deriving DecidableEq

/-- Instructors with their items, grouped under one course. -/
structure InstructorItems where
  InstructorName : Str
  Items : List ReserveItem
deriving DecidableEq

/-- Result entry of the course-id / course-name search. -/
structure CourseSearchResponse where
  CourseName : Str
  CourseID : Str
  Instructors : List InstructorItems
deriving DecidableEq

/-- Item built from a solr hit; Go evaluates doc.Title[0], so an empty title
list is a runtime panic (none). -/
def toReserveItem (doc : SolrReservesHit) : Option ReserveItem :=
  match doc.Title with
  | [] => none
  | t :: _ =>
    some { ID := doc.ID
           Title := t
           Author := goJoin (("; ").toList) doc.Author
           CallNumber := goJoin ((", ").toList) doc.CallNumber
           Library := goJoin ((", ").toList) doc.Library }

/-- Association-list lookup standing for a Go map read. -/
def lookupAssoc {κ β : Type} [DecidableEq κ] (k : κ) : List (κ × β) → Option β
  | [] => none
  | (k2, v) :: rest => if k2 = k then some v else lookupAssoc k rest

/-- Association-list update of the value stored under an existing key. -/
def setAssoc {κ β : Type} [DecidableEq κ] (k : κ) (v : β) : List (κ × β) → List (κ × β)
  | [] => []
  | (k2, v2) :: rest => if k2 = k then (k2, v) :: rest else (k2, v2) :: setAssoc k v rest

/-- Appends an item to the first course of the list carrying the given course
id (Go mutates that course through its pointer). -/
def appendToCourse (cid : Str) (item : ReserveItem) : List CourseItems → List CourseItems
  | [] => []
  | c :: rest =>
    if c.CourseID = cid then { c with Items := c.Items ++ [item] } :: rest
    else c :: appendToCourse cid item rest

/-- Does some course of the list carry the given course id. -/
def hasCourse (cid : Str) (cs : List CourseItems) : Bool :=
  cs.any (fun c => decide (c.CourseID = cid))

/-- State of the instructor-keyed grouping map. -/
abbrev RawInstr := List (Str × List CourseItems)

/-- One matching tag folded into the instructor-keyed map.  When the
instructor is new, the course list holding the item is stored under the key.
When the instructor exists and the course exists, the item is appended to
that course (visible through the stored pointer).  When the instructor exists
but the course does not, Go appends the new course to a local copy of the
slice that is never written back into the map (append reallocates the backing
array), so the addition is lost and the map is unchanged. -/
def instrAddTag (raw : RawInstr) (cid cname instr : Str) (item : ReserveItem) : RawInstr :=
  match lookupAssoc instr raw with
  | none => raw ++ [(instr, [{ CourseName := cname, CourseID := cid, Items := [item] }])]
  | some courses =>
    if hasCourse cid courses then setAssoc instr (appendToCourse cid item courses) raw
    else raw

/-- One reserve tag processed by extractInstructorReserves: split on the pipe,
index parts 0, 1 and 2 (fewer than three parts is a runtime panic), filter on
the instructor key, then build the item and fold it in. -/
def instrStep (tgt : Str) (doc : SolrReservesHit) (raw : RawInstr) (tag : Str) :
    Option RawInstr :=
  match splitPipe tag with
  | cid :: cname :: instr :: _ =>
    if matchesQuery tgt instr then
      match toReserveItem doc with
      | none => none
      | some item => some (instrAddTag raw cid cname instr item)
    else some raw
  | _ => none

/-- Folds the reserve tags of one document. -/
def instrTags (tgt : Str) (doc : SolrReservesHit) : List Str → RawInstr → Option RawInstr
  | [], raw => some raw
  | tag :: rest, raw =>
    match instrStep tgt doc raw tag with
    | none => none
    | some raw2 => instrTags tgt doc rest raw2

/-- Folds all documents into the instructor-keyed map. -/
def instrDocs (tgt : Str) : List SolrReservesHit → RawInstr → Option RawInstr
  | [], raw => some raw
  | doc :: rest, raw =>
    match instrTags tgt doc doc.ReserveInfo raw with
    | none => none
    | some raw2 => instrDocs tgt rest raw2

/-- Embeds extractInstructorReserves.  The final conversion walks the map; the
embedding walks the association list in key-insertion order (Go map iteration
order is unspecified). -/
def extractInstructorReserves (tgt : Str) (docs : List SolrReservesHit) :
    Option (List InstructorSearchResponse) :=
  (instrDocs tgt docs []).map
    (fun raw => raw.map (fun p => { InstructorName := p.1, Courses := p.2 }))

/-- Appends an item to the first instructor entry carrying the given name. -/
def appendToInstr (iname : Str) (item : ReserveItem) :
    List InstructorItems → List InstructorItems
  | [] => []
  | i :: rest =>
    if i.InstructorName = iname then { i with Items := i.Items ++ [item] } :: rest
    else i :: appendToInstr iname item rest

/-- Does some instructor entry of the list carry the given name. -/
def hasInstr (iname : Str) (is : List InstructorItems) : Bool :=
  is.any (fun i => decide (i.InstructorName = iname))

/-- State of the course-keyed grouping map (key: course id and name). -/
abbrev RawCourse := List ((Str × Str) × List InstructorItems)

/-- One matching tag folded into the course-keyed map; the missing write-back
of the appended slice loses a new instructor under an existing course exactly
as in instrAddTag. -/
def courseAddTag (raw : RawCourse) (cid cname instr : Str) (item : ReserveItem) : RawCourse :=
  match lookupAssoc (cid, cname) raw with
  | none => raw ++ [((cid, cname), [{ InstructorName := instr, Items := [item] }])]
  | some instrs =>
    if hasInstr instr instrs then setAssoc (cid, cname) (appendToInstr instr item instrs) raw
    else raw

/-- One reserve tag processed by extractCourseReserves: the grouping key is
the course name when the search type is course_name, the course id otherwise. -/
def courseStep (tgtType tgt : Str) (doc : SolrReservesHit) (raw : RawCourse) (tag : Str) :
    Option RawCourse :=
  match splitPipe tag with
  | cid :: cname :: instr :: _ =>
    let key := if tgtType = ("course_name").toList then cname else cid
    if matchesQuery tgt key then
      match toReserveItem doc with
      | none => none
      | some item => some (courseAddTag raw cid cname instr item)
    else some raw
  | _ => none

/-- Folds the reserve tags of one document (course-keyed). -/
def courseTags (tgtType tgt : Str) (doc : SolrReservesHit) :
    List Str → RawCourse → Option RawCourse
  | [], raw => some raw
  | tag :: rest, raw =>
    match courseStep tgtType tgt doc raw tag with
    | none => none
    | some raw2 => courseTags tgtType tgt doc rest raw2

/-- Folds all documents into the course-keyed map. -/
def courseDocs (tgtType tgt : Str) : List SolrReservesHit → RawCourse → Option RawCourse
  | [], raw => some raw
  | doc :: rest, raw =>
    match courseTags tgtType tgt doc doc.ReserveInfo raw with
    | none => none
    | some raw2 => courseDocs tgtType tgt rest raw2

/-- Embeds extractCourseReserves. -/
def extractCourseReserves (tgtType tgt : Str) (docs : List SolrReservesHit) :
    Option (List CourseSearchResponse) :=
  (courseDocs tgtType tgt docs []).map
    (fun raw => raw.map
      (fun p => { CourseName := p.1.2, CourseID := p.1.1, Instructors := p.2 }))

/-! Reserve validation (validateCourseReserves) and notification routing. -/

/-- Per-id eligibility entry of the backend validation response. -/
structure ValidateResponse where
  ID : Str
  Reserve : Bool
  IsVideo : Bool
deriving DecidableEq

/-- Reclassification of one entry: entries already flagged eligible and video
are skipped; otherwise the catalog record is fetched (the revision guards a
nil record) and, when the streaming-video signal holds, both flags are set. -/
def revalidateItem (look : Str → Option SolrDocument) (v : ValidateResponse) :
    Option ValidateResponse :=
  if v.Reserve = false ∨ v.IsVideo = false then
    match look v.ID with
    | none => some v
    | some doc =>
      match streamingVideoSignal doc with
      | none => none
      | some b => some (if b then { v with IsVideo := true, Reserve := true } else v)
  else some v

/-- Embeds the reclassification loop of validateCourseReserves for a caller
holding reserve-placement capability. -/
def revalidate (look : Str → Option SolrDocument) :
    List ValidateResponse → Option (List ValidateResponse)
  | [] => some []
  | v :: rest =>
    match revalidateItem look v with
    | none => none
    | some w => (revalidate look rest).map (fun ws => w :: ws)

/-- Request identity fields of a reserve-creation request. -/
structure RequestParams where
  OnBehalfOf : Str
  InstructorName : Str
  InstructorEmail : Str
  Name : Str
  Email : Str
  Course : Str
  Semester : Str
  Library : Str
  Period : Str
deriving DecidableEq

/-- Recipient routing computed for each bucket email (field to of the Go
email request is spelled toAddrs here). -/
structure EmailRouting where
  toAddrs : List Str
  cc : Str
  sender : Str
  subjName : Str
deriving DecidableEq

/-- Embeds the recipient/sender selection of createCourseReserves, identical
for the video and non-video bucket emails. -/
def reserveEmailRouting (smtpSender lawEmail crEmail : Str) (req : RequestParams) :
    EmailRouting :=
  if req.Library = ("law").toList then
    { toAddrs := [lawEmail, req.Email]
        ++ (if req.InstructorEmail = [] then [] else [req.InstructorEmail])
      cc := []
      sender := smtpSender
      subjName := req.Name }
  else if req.InstructorEmail = [] then
    { toAddrs := [crEmail], cc := [], sender := req.Email, subjName := req.Name }
  else
    { toAddrs := [crEmail], cc := req.Email, sender := req.InstructorEmail
      subjName := req.InstructorName }

/-! Concrete inputs used by the witnesses and counterexamples. -/

/-- Catalog record with every field empty. -/
def emptySolr : SolrDocument :=
  { AnonAvailability := [], Author := [], Barcode := [], CallNumber := [], Copy := []
    Description := [], Edition := [], HathiETAS := [], Issue := [], Format := [], ID := []
    ISBN := [], ISSN := [], Library := [], Location := [], LocalNotes := [], Medium := []
    Pool := [], PublicationDate := [], PublishedLocation := [], PublisherName := []
    SCAvailability := [], Source := [], Title := [], URL := [], Volume := [], WorkTypes := [] }

/-- Record of the emergency-access scenario: hathi_etas_f nonempty, one URL. -/
def docETAS : SolrDocument :=
  { emptySolr with HathiETAS := [("true").toList], URL := [("https://x").toList] }

/-- Record triggering the empty-pool panic of the streaming rule even though
its source list would satisfy the Avalon alternative. -/
def docPoolEmptyAvalon : SolrDocument :=
  { emptySolr with Source := [("Avalon").toList] }

/-- Record satisfying the streaming-video signal. -/
def docVideo : SolrDocument :=
  { emptySolr with Pool := [("video").toList], Location := [("Internet materials").toList] }

/-- Catalog lookup that always resolves to the streaming-video record. -/
def lookVideo : Str → Option SolrDocument := fun _ => some docVideo

/-- Special-collections inventory item with no item-level note. -/
def itemSC : Item :=
  { Barcode := ("b1").toList, OnShelf := true, Unavailable := false, Notice := []
    Library := ("Special Collections").toList, LibraryID := ("SPEC-COLL").toList
    CurrentLocation := [], HomeLocationID := [], CallNumber := ("CN1").toList, Volume := []
    SCNotes := [], Map := { ID := [], Name := [], MapURL := [] } }

/-- Circulating inventory item. -/
def itemCirc : Item :=
  { Barcode := ("b2").toList, OnShelf := true, Unavailable := false, Notice := []
    Library := ("Alderman").toList, LibraryID := ("ALD").toList
    CurrentLocation := [], HomeLocationID := [], CallNumber := ("CN2").toList, Volume := []
    SCNotes := [], Map := { ID := [], Name := [], MapURL := [] } }

/-- Scan request option. -/
def optScan : RequestOption :=
  { type := ("scan").toList, Label := [], Description := [], CreateURL := []
    SignInRequired := false, StreamingReserve := false, ItemOptions := [] }

/-- Hold request option. -/
def optHold : RequestOption :=
  { type := ("hold").toList, Label := [], Description := [], CreateURL := []
    SignInRequired := false, StreamingReserve := false, ItemOptions := [] }

/-- Document of the spec scenario: hold option at index 1, mixed items. -/
def availScenario : AvailabilityData :=
  { ID := [], Display := [], Items := [itemSC, itemCirc]
    RequestOptions := [optScan, optHold], BoundWith := [] }

/-- Document carrying two hold options at once. -/
def availTwoHolds : AvailabilityData :=
  { ID := [], Display := [], Items := [itemSC, itemCirc]
    RequestOptions := [optHold, optHold], BoundWith := [] }

/-- Document with a single special-collections item. -/
def availNotes : AvailabilityData :=
  { ID := [], Display := [], Items := [itemSC], RequestOptions := [], BoundWith := [] }

/-- Special-collections record with one local note. -/
def docNotes : SolrDocument :=
  { emptySolr with Library := [("Special Collections").toList], LocalNotes := [("a").toList] }

/-- Reserve hit with title B and the shared Smith tag. -/
def dHit1 : SolrReservesHit :=
  { ID := ("d1").toList, Title := [("B").toList], Author := [], CallNumber := [], Library := []
    ReserveInfo := [("C1|N|Smith").toList] }

/-- Reserve hit with title A and the shared Smith tag. -/
def dHit2 : SolrReservesHit :=
  { ID := ("d2").toList, Title := [("A").toList], Author := [], CallNumber := [], Library := []
    ReserveInfo := [("C1|N|Smith").toList] }

/-- Reserve hit carrying the same tag twice. -/
def dHit3 : SolrReservesHit :=
  { ID := ("d3").toList, Title := [("T").toList], Author := [], CallNumber := [], Library := []
    ReserveInfo := [("C1|N|Smith").toList, ("C1|N|Smith").toList] }

/-- Reserve hit whose tag has a single pipe separator (fewer than two). -/
def dHitBadTag : SolrReservesHit :=
  { ID := ("d4").toList, Title := [("T").toList], Author := [], CallNumber := [], Library := []
    ReserveInfo := [("HIST101|History").toList] }

/-- Total variant of the item builder, defined with a default head. -/
def reserveItemTotal (doc : SolrReservesHit) : ReserveItem :=
  { ID := doc.ID
    Title := doc.Title.headD []
    Author := goJoin (("; ").toList) doc.Author
    CallNumber := goJoin ((", ").toList) doc.CallNumber
    Library := goJoin ((", ").toList) doc.Library }

/-! Generic lemmas about the string and list helpers. -/

theorem isPrefixB_iff (n h : Str) : isPrefixB n h = true ↔ n <+: h := by
  induction n generalizing h with
  | nil => simp [isPrefixB]
  | cons a as ih =>
    cases h with
    | nil => simp [isPrefixB]
    | cons b bs =>
      simp only [isPrefixB, Bool.and_eq_true, beq_iff_eq, ih, List.cons_prefix_cons]

theorem goIndexOf_zero_iff (hay needle : Str) :
    goIndexOf hay needle = some 0 ↔ isPrefixB needle hay = true := by
  cases hay with
  | nil => cases needle <;> simp [goIndexOf, isPrefixB]
  | cons c rest =>
    by_cases hp : isPrefixB needle (c :: rest) = true
    · simp [goIndexOf, hp]
    · simp only [goIndexOf, if_neg hp]
      cases goIndexOf rest needle <;> simp [hp]

theorem foldl_append_flatten {α β : Type} (f : α → List β) (l : List α) (acc : List β) :
    l.foldl (fun a n => a ++ f n) acc = acc ++ (l.map f).flatten := by
  induction l generalizing acc with
  | nil => simp
  | cons x xs ih => simp [ih, List.append_assoc]

theorem findLastIdx_eq_none {α : Type} (p : α → Bool) (l : List α) :
    findLastIdx p l = none ↔ l.countP p = 0 := by
  induction l with
  | nil => simp [findLastIdx]
  | cons a l ih =>
    rw [List.countP_cons]
    cases h : findLastIdx p l with
    | some j =>
      simp only [findLastIdx, h]
      constructor
      · intro hc; cases hc
      · intro hc
        have h0 : l.countP p = 0 := by omega
        rw [ih.mpr h0] at h
        cases h
    | none =>
      simp only [findLastIdx, h]
      have h0 : l.countP p = 0 := ih.mp h
      cases hpa : p a <;> simp [hpa, h0]

theorem findLastIdx_mem {α : Type} (p : α → Bool) (l : List α) (j : Nat)
    (h : findLastIdx p l = some j) : ∃ o, l[j]? = some o ∧ p o = true := by
  induction l generalizing j with
  | nil => simp [findLastIdx] at h
  | cons a l ih =>
    cases hl : findLastIdx p l with
    | some k =>
      simp only [findLastIdx, hl, Option.some.injEq] at h
      subst h
      obtain ⟨o, ho, hp⟩ := ih k hl
      exact ⟨o, by simpa using ho, hp⟩
    | none =>
      simp only [findLastIdx, hl] at h
      cases hpa : p a
      · rw [if_neg (by simp [hpa])] at h; cases h
      · rw [if_pos (by simp [hpa])] at h
        cases h
        exact ⟨a, by simp, hpa⟩

theorem findLastIdx_of_unique {α : Type} (p : α → Bool) :
    ∀ (l : List α) (i : Nat) (o : α), l.countP p ≤ 1 → l[i]? = some o → p o = true →
      findLastIdx p l = some i := by
  intro l
  induction l with
  | nil => intro i o _ hio _; simp at hio
  | cons a l ih =>
    intro i o h1 hio hpo
    cases i with
    | zero =>
      rw [List.getElem?_cons_zero, Option.some.injEq] at hio
      subst hio
      have hnone : findLastIdx p l = none := by
        cases hl : findLastIdx p l with
        | none => rfl
        | some k =>
          obtain ⟨o2, ho2, hp2⟩ := findLastIdx_mem p l k hl
          have hmem : o2 ∈ l := by
            rw [List.getElem?_eq_some_iff] at ho2
            obtain ⟨hlt, rfl⟩ := ho2
            exact List.getElem_mem hlt
          have hpos : 0 < l.countP p := List.countP_pos_iff.mpr ⟨o2, hmem, hp2⟩
          rw [List.countP_cons_of_pos _ _ hpo] at h1
          omega
      simp only [findLastIdx, hnone]
      rw [if_pos (by simp [hpo])]
    | succ k =>
      rw [List.getElem?_cons_succ] at hio
      have hcl : l.countP p ≤ 1 := by rw [List.countP_cons] at h1; omega
      have hrec : findLastIdx p l = some k := ih k o hcl hio hpo
      simp [findLastIdx, hrec]

theorem countP_set_of_unique {α : Type} (p : α → Bool) :
    ∀ (l : List α) (i : Nat) (o x : α), l.countP p ≤ 1 → l[i]? = some o → p o = true →
      p x = false → (l.set i x).countP p = 0 := by
  intro l
  induction l with
  | nil => intro i o x _ hio _ _; simp at hio
  | cons a l ih =>
    intro i o x h1 hio hpo hx
    cases i with
    | zero =>
      rw [List.getElem?_cons_zero, Option.some.injEq] at hio
      subst hio
      rw [List.countP_cons_of_pos _ _ hpo] at h1
      have h0 : l.countP p = 0 := by omega
      rw [List.set_cons_zero, List.countP_cons_of_neg _ _ (by simp [hx]), h0]
    | succ k =>
      rw [List.getElem?_cons_succ] at hio
      have hmem : o ∈ l := by
        have hio2 := hio
        rw [List.getElem?_eq_some_iff] at hio2
        obtain ⟨hlt, rfl⟩ := hio2
        exact List.getElem_mem hlt
      have hpos : 0 < l.countP p := List.countP_pos_iff.mpr ⟨o, hmem, hpo⟩
      have hpa : p a = false := by
        cases hq : p a
        · rfl
        · rw [List.countP_cons_of_pos _ _ hq] at h1; omega
      have hcl : l.countP p ≤ 1 := by rw [List.countP_cons] at h1; omega
      rw [List.set_cons_succ, List.countP_cons_of_neg _ _ (by simp [hpa])]
      exact ih k o x hcl hio hpo hx

/-- Per-entry analysis of the reclassification step of validateCourseReserves:
whenever it completes, the id is preserved and the two flags only ever move
from false to true, with fully flagged entries left untouched. -/
theorem revalidateItem_mono (look : Str → Option SolrDocument) (v w : ValidateResponse)
    (h : revalidateItem look v = some w) :
    w.ID = v.ID ∧ (v.Reserve = true → w.Reserve = true) ∧ (v.IsVideo = true → w.IsVideo = true)
      ∧ (v.Reserve = true ∧ v.IsVideo = true → w = v) := by
  by_cases hc : v.Reserve = false ∨ v.IsVideo = false
  · cases hlook : look v.ID with
    | none =>
      simp only [revalidateItem, if_pos hc, hlook, Option.some.injEq] at h
      subst h
      exact ⟨rfl, fun h2 => h2, fun h2 => h2, fun _ => rfl⟩
    | some doc =>
      cases hs : streamingVideoSignal doc with
      | none =>
        simp only [revalidateItem, if_pos hc, hlook, hs] at h
        cases h
      | some b =>
        simp only [revalidateItem, if_pos hc, hlook, hs, Option.some.injEq] at h
        subst h
        cases b
        · simp
        · refine ⟨rfl, fun _ => rfl, fun _ => rfl, ?_⟩
          rintro ⟨hr, hv⟩
          rcases hc with hc | hc
          · rw [hc] at hr; cases hr
          · rw [hc] at hv; cases hv
  · simp only [revalidateItem, if_neg hc, Option.some.injEq] at h
    subst h
    exact ⟨rfl, fun h2 => h2, fun h2 => h2, fun _ => rfl⟩

/-- C10: the reclassification loop of validateCourseReserves is monotone and
order/length preserving: whenever it completes it returns entries with the
same ids in the same order, only ever changing the Reserve and IsVideo flags
from false to true, and leaving entries already flagged eligible and video
unchanged. -/
theorem claim_c10 (look : Str → Option SolrDocument) (resp out : List ValidateResponse)
    (h : revalidate look resp = some out) :
    List.Forall₂
      (fun v w => w.ID = v.ID ∧ (v.Reserve = true → w.Reserve = true)
        ∧ (v.IsVideo = true → w.IsVideo = true) ∧ (v.Reserve = true ∧ v.IsVideo = true → w = v))
      resp out
    ∧ out.length = resp.length := by
  have hf : List.Forall₂
      (fun v w => w.ID = v.ID ∧ (v.Reserve = true → w.Reserve = true)
        ∧ (v.IsVideo = true → w.IsVideo = true) ∧ (v.Reserve = true ∧ v.IsVideo = true → w = v))
      resp out := by
    induction resp generalizing out with
    | nil =>
      unfold revalidate at h
      rw [Option.some.injEq] at h
      subst h
      exact List.Forall₂.nil
    | cons v rest ih =>
      unfold revalidate at h
      cases hi : revalidateItem look v with
      | none => rw [hi] at h; cases h
      | some w =>
        rw [hi] at h
        cases hr : revalidate look rest with
        | none => rw [hr] at h; cases h
        | some ws =>
          rw [hr] at h
          simp at h
          subst h
          exact List.Forall₂.cons (revalidateItem_mono look v w hi) (ih ws hr)
  exact ⟨hf, hf.length_eq.symm⟩

/-- Backend response exercised by the validation witness. -/
def respIn : List ValidateResponse :=
  [{ ID := ("a").toList, Reserve := false, IsVideo := false }
   , { ID := ("b").toList, Reserve := true, IsVideo := true }]

/-- Reclassified output of the validation witness. -/
def respOut : List ValidateResponse :=
  [{ ID := ("a").toList, Reserve := true, IsVideo := true }
   , { ID := ("b").toList, Reserve := true, IsVideo := true }]

/-- Witness for C10 at a concrete backend response and catalog lookup. -/
theorem claim_c10_witness :
    List.Forall₂
      (fun v w => w.ID = v.ID ∧ (v.Reserve = true → w.Reserve = true)
        ∧ (v.IsVideo = true → w.IsVideo = true) ∧ (v.Reserve = true ∧ v.IsVideo = true → w = v))
      respIn respOut
    ∧ respOut.length = respIn.length :=
  claim_c10 lookVideo respIn respOut (by decide)

/-- C4: a reserve tag is retained exactly when its grouping key starts with
the query under case-insensitive comparison anchored at position zero; an
occurrence of the query strictly after position zero does not match. -/
theorem claim_c4 (tgt key : Str) :
    matchesQuery tgt key = true ↔ goLower tgt <+: goLower key := by
  unfold matchesQuery
  rw [beq_iff_eq, goIndexOf_zero_iff, isPrefixB_iff]

/-- Witness for C4: the query bear matches the instructor Beardsley at
position zero and does not match a name containing bear later on. -/
theorem claim_c4_witness :
    matchesQuery (("bear").toList) (("Beardsley, S.").toList) = true
    ∧ matchesQuery (("bear").toList) (("O. Beardsley").toList) = false := by
  constructor
  · exact (claim_c4 (("bear").toList) (("Beardsley, S.").toList)).mpr (by decide)
  · refine Bool.eq_false_iff.mpr ?_
    intro htrue
    exact absurd ((claim_c4 (("bear").toList) (("O. Beardsley").toList)).mp htrue) (by decide)

/-- C5: the streaming-video rule evaluates the first pool entry before any
guard, and tag parsing indexes the second and third pipe-separated fields
unconditionally, so an empty pool list or a tag with fewer than two pipe
separators is a runtime panic (none), not a skip. -/
theorem claim_c5_panics :
    addStreamingVideoReserve docPoolEmptyAvalon availNotes = none
    ∧ extractInstructorReserves [] [dHitBadTag] = none
    ∧ extractCourseReserves (("course_id").toList) [] [dHitBadTag] = none :=
  ⟨rfl, rfl, rfl⟩

/-- C6: getSolrDoc evaluates Docs[0] unconditionally after logging, so a
lookup returning zero documents is a runtime panic (none) rather than a
normal degraded response, while any non-empty document list proceeds with the
first document whatever NumFound says. -/
theorem claim_c6_panics :
    getSolrDoc { NumFound := 0, Docs := [] } = none
    ∧ ∀ (n : Int) (d : SolrDocument) (ds : List SolrDocument),
        getSolrDoc { NumFound := n, Docs := d :: ds } = some d :=
  ⟨rfl, fun _ _ _ => rfl⟩

/-- C7: for a catalog record whose stored-availability field is empty, the
archival-merge step returns the availability document unchanged, whatever the
decoder would do. -/
theorem claim_c7 (decode : Str → List Item) (result : AvailabilityData) (doc : SolrDocument)
    (h : doc.SCAvailability = []) : processSCAvailabilityStored decode result doc = result := by
  unfold processSCAvailabilityStored
  rw [if_pos h]

/-- Witness for C7 at a concrete document and record. -/
theorem claim_c7_witness :
    processSCAvailabilityStored (fun _ => []) availNotes emptySolr = availNotes :=
  claim_c7 (fun _ => []) availNotes emptySolr rfl

/-- C9: recipient routing of the reserve-request emails: for the law library
the recipients are the law mailbox, the requester and, when supplied, the
instructor, sent from the default SMTP sender; otherwise the sole recipient
is the general course-reserve mailbox and the sender/CC pair is the
instructor/requester when an instructor email is present, else the requester
with no CC. -/
theorem claim_c9 (smtpSender lawEmail crEmail : Str) (req : RequestParams) :
    (req.Library = ("law").toList →
      (reserveEmailRouting smtpSender lawEmail crEmail req).toAddrs
          = [lawEmail, req.Email]
            ++ (if req.InstructorEmail = [] then [] else [req.InstructorEmail])
        ∧ (reserveEmailRouting smtpSender lawEmail crEmail req).sender = smtpSender
        ∧ (reserveEmailRouting smtpSender lawEmail crEmail req).cc = [])
    ∧ (req.Library ≠ ("law").toList →
        (reserveEmailRouting smtpSender lawEmail crEmail req).toAddrs = [crEmail]
        ∧ (req.InstructorEmail ≠ [] →
            (reserveEmailRouting smtpSender lawEmail crEmail req).sender = req.InstructorEmail
            ∧ (reserveEmailRouting smtpSender lawEmail crEmail req).cc = req.Email)
        ∧ (req.InstructorEmail = [] →
            (reserveEmailRouting smtpSender lawEmail crEmail req).sender = req.Email
            ∧ (reserveEmailRouting smtpSender lawEmail crEmail req).cc = [])) := by
  by_cases hl : req.Library = ("law").toList <;>
    by_cases hi : req.InstructorEmail = [] <;>
      simp_all [reserveEmailRouting]

/-- Law-library reserve request with an instructor email supplied. -/
def reqLaw : RequestParams :=
  { OnBehalfOf := [], InstructorName := ("Prof").toList
    InstructorEmail := ("prof@x.edu").toList, Name := ("Pat").toList
    Email := ("pat@x.edu").toList, Course := [], Semester := []
    Library := ("law").toList, Period := [] }

/-- Witness for C9 at a concrete law-library request. -/
theorem claim_c9_witness :
    (reserveEmailRouting (("v4@x.edu").toList) (("lawres@x.edu").toList) (("res@x.edu").toList)
        reqLaw).toAddrs
      = [("lawres@x.edu").toList, ("pat@x.edu").toList, ("prof@x.edu").toList]
    ∧ (reserveEmailRouting (("v4@x.edu").toList) (("lawres@x.edu").toList) (("res@x.edu").toList)
        reqLaw).sender = ("v4@x.edu").toList := by
  have h := (claim_c9 (("v4@x.edu").toList) (("lawres@x.edu").toList) (("res@x.edu").toList)
    reqLaw).1 rfl
  refine ⟨?_, h.2.1⟩
  rw [h.1]
  decide

/-- Emergency-access option is never of type hold. -/
theorem holdB_hathiOption (doc : SolrDocument) : holdB (hathiOption doc) = false := by
  unfold holdB hathiOption
  cases doc.URL <;> simp

/-- Shape of the override when a hold option is found: replacement in place. -/
theorem removeETAS_eq_replace (doc : SolrDocument) (result : AvailabilityData) (i : Nat)
    (hEtas : doc.HathiETAS ≠ [])
    (hf : findLastIdx holdB result.RequestOptions = some i) :
    removeETASRequestOptions doc result =
      { result with
          RequestOptions := result.RequestOptions.set i (hathiOption doc)
          Items := result.Items.filter
            (fun v => decide (v.LibraryID = (("SPEC-COLL").toList))) } := by
  unfold removeETASRequestOptions
  rw [if_neg hEtas]
  simp only [hf]

/-- Shape of the override when no hold option exists: append. -/
theorem removeETAS_eq_append (doc : SolrDocument) (result : AvailabilityData)
    (hEtas : doc.HathiETAS ≠ [])
    (hf : findLastIdx holdB result.RequestOptions = none) :
    removeETASRequestOptions doc result =
      { result with
          RequestOptions := result.RequestOptions ++ [hathiOption doc]
          Items := result.Items.filter
            (fun v => decide (v.LibraryID = (("SPEC-COLL").toList))) } := by
  unfold removeETASRequestOptions
  rw [if_neg hEtas]
  simp only [hf]

/-- C1 (amended): for a record with a non-empty emergency-access field and a
document carrying at most one hold option (the documented single-instance
invariant): the built option is a directLink option, labelled for HathiTrust
when a URL exists; when a hold option sits at index i the option list becomes
the original list with index i replaced by the emergency option and no hold
option remains; when no hold option exists the emergency option is appended
and still no hold option remains; and the item list is filtered to exactly
the items whose library id is SPEC-COLL. -/
theorem claim_c1_amended (doc : SolrDocument) (result : AvailabilityData)
    (hEtas : doc.HathiETAS ≠ [])
    (hInv : result.RequestOptions.countP holdB ≤ 1) :
    (hathiOption doc).type = ("directLink").toList
    ∧ (doc.URL ≠ [] → (hathiOption doc).Label = ("Read via HathiTrust").toList)
    ∧ (∀ i o, result.RequestOptions[i]? = some o → holdB o = true →
        (removeETASRequestOptions doc result).RequestOptions
          = result.RequestOptions.set i (hathiOption doc)
        ∧ (removeETASRequestOptions doc result).RequestOptions.countP holdB = 0)
    ∧ (result.RequestOptions.countP holdB = 0 →
        (removeETASRequestOptions doc result).RequestOptions
          = result.RequestOptions ++ [hathiOption doc]
        ∧ (removeETASRequestOptions doc result).RequestOptions.countP holdB = 0)
    ∧ (removeETASRequestOptions doc result).Items
        = result.Items.filter (fun v => decide (v.LibraryID = (("SPEC-COLL").toList))) := by
  have hH := holdB_hathiOption doc
  refine ⟨?_, ?_, ?_, ?_, ?_⟩
  · unfold hathiOption
    cases doc.URL <;> rfl
  · intro hU
    unfold hathiOption
    cases hU2 : doc.URL with
    | nil => exact absurd hU2 hU
    | cons u us => rfl
  · intro i o hio hpo
    have hf := findLastIdx_of_unique holdB result.RequestOptions i o hInv hio hpo
    rw [removeETAS_eq_replace doc result i hEtas hf]
    exact ⟨rfl, countP_set_of_unique holdB result.RequestOptions i o (hathiOption doc)
      hInv hio hpo hH⟩
  · intro h0
    have hf := (findLastIdx_eq_none holdB result.RequestOptions).mpr h0
    rw [removeETAS_eq_append doc result hEtas hf]
    refine ⟨rfl, ?_⟩
    rw [List.countP_append, h0, List.countP_singleton, if_neg (by simp [hH])]
  · cases hf : findLastIdx holdB result.RequestOptions with
    | some i => rw [removeETAS_eq_replace doc result i hEtas hf]
    | none => rw [removeETAS_eq_append doc result hEtas hf]

/-- Witness for C1 at the spec scenario: hathi_etas_f nonempty, one URL, a
hold option at index 1; afterwards index 1 carries the emergency option, no
hold option remains and only the SPEC-COLL item survives. -/
theorem claim_c1_witness :
    (removeETASRequestOptions docETAS availScenario).RequestOptions
        = availScenario.RequestOptions.set 1 (hathiOption docETAS)
    ∧ (removeETASRequestOptions docETAS availScenario).RequestOptions.countP holdB = 0
    ∧ (hathiOption docETAS).Label = ("Read via HathiTrust").toList
    ∧ (removeETASRequestOptions docETAS availScenario).Items = [itemSC] := by
  have h := claim_c1_amended docETAS availScenario (by decide) (by decide)
  have hrep := h.2.2.1 1 optHold (by decide) (by decide)
  refine ⟨hrep.1, hrep.2, h.2.1 (by decide), ?_⟩
  rw [h.2.2.2.2]
  decide

/-- Counterexample for C1 as stated: with two hold options present (the claim
quantifies over every document), only the last one is replaced, the hold at
index 0 survives, and a hold option remains after the override. -/
theorem claim_c1_counterexample :
    docETAS.HathiETAS ≠ []
    ∧ availTwoHolds.RequestOptions[0]? = some optHold
    ∧ holdB optHold = true
    ∧ ((removeETASRequestOptions docETAS availTwoHolds).RequestOptions[0]?.map
        (fun o => o.type)) = some (("hold").toList)
    ∧ (removeETASRequestOptions docETAS availTwoHolds).RequestOptions.countP holdB = 1 := by
  decide

/-- Selection loop of createAeonItemOptions as a filter-and-map. -/
theorem createAeon_foldl (doc : SolrDocument) (items : List Item) (acc : List ItemOption) :
    items.foldl
        (fun acc item =>
          if item.LibraryID = (("SPEC-COLL").toList) ∨ doc.SCAvailability ≠ [] then
            acc ++ [aeonItemOption doc item]
          else acc) acc
      = acc ++ (items.filter
          (fun it => decide (it.LibraryID = (("SPEC-COLL").toList) ∨ doc.SCAvailability ≠ []))).map
            (aeonItemOption doc) := by
  induction items generalizing acc with
  | nil => simp
  | cons x xs ih =>
    by_cases hx : x.LibraryID = (("SPEC-COLL").toList) ∨ doc.SCAvailability ≠ []
    · rw [List.foldl_cons, if_pos hx, ih, List.filter_cons, if_pos (decide_eq_true hx),
        List.map_cons, List.append_assoc, List.singleton_append]
    · rw [List.foldl_cons, if_neg hx, ih, List.filter_cons, if_neg (by simpa using hx)]

/-- Notes built by the Go accumulation loop agree with the amended
terminator-style description. -/
theorem aeonNotes_eq_amended (doc : SolrDocument) (item : Item) :
    aeonNotes doc item = aeonNotesAmended doc item := by
  unfold aeonNotes aeonNotesAmended
  cases hS : item.SCNotes with
  | cons c cs => simp
  | nil =>
    simp only [List.length_nil, gt_iff_lt, Nat.lt_irrefl, if_false, ne_eq,
      not_true_eq_false, if_neg]
    cases hL : doc.LocalNotes with
    | nil => simp
    | cons n ns =>
      simp only [List.length_cons, Nat.succ_pos, if_pos, ne_eq, reduceCtorEq,
        not_false_eq_true, if_true]
      rw [foldl_append_flatten cleanLocalNote (n :: ns) []]
      simp

/-- C8 (amended): every item choice of the Aeon option carries exactly the
priority notes string: the item-level note when non-empty, else the cleaned
local notes each followed by a semicolon-newline terminator (also after the
last note) and truncated to 999 characters, else the fixed placeholder; item
choices are exactly the filtered items in order. -/
theorem claim_c8_amended (result : AvailabilityData) (doc : SolrDocument) :
    createAeonItemOptions result doc
      = (result.Items.filter
          (fun it => decide (it.LibraryID = (("SPEC-COLL").toList) ∨ doc.SCAvailability ≠ []))).map
          (fun it =>
            { Barcode := it.Barcode
              Label := it.CallNumber
              Location := it.HomeLocationID
              LocationID := []
              Library := it.Library
              SCNotes := aeonNotesAmended doc it
              Notice := it.Notice }) := by
  unfold createAeonItemOptions
  rw [createAeon_foldl doc result.Items []]
  rw [List.nil_append]
  apply List.map_congr_left
  intro a _
  unfold aeonItemOption
  rw [aeonNotes_eq_amended]

/-- Counterexample for C8 as stated: with one local note a and no item note,
the code produces the notes string a;(newline) with a terminator and no space,
while the claimed separator-style concatenation yields the bare note a. -/
theorem claim_c8_counterexample :
    (createAeonItemOptions availNotes docNotes).map (fun o => o.SCNotes) = [("a;\n").toList]
    ∧ aeonNotesClaimed docNotes itemSC = ("a").toList
    ∧ (("a;\n").toList : Str) ≠ (("a").toList : Str) := by
  decide

/-- Item builder as a total function on hits with a non-empty title list. -/
theorem toReserveItem_eq (d : SolrReservesHit) (h : d.Title ≠ []) :
    toReserveItem d = some (reserveItemTotal d) := by
  unfold toReserveItem reserveItemTotal
  cases ht : d.Title with
  | nil => exact absurd ht h
  | cons t ts => simp [ht]

/-- One matching tag processed against a map already holding the (instructor,
course) group: the item is appended at the end of that group. -/
theorem instrTags_single (cid cname instr tgt t : Str)
    (ht : splitPipe t = [cid, cname, instr]) (hm : matchesQuery tgt instr = true)
    (d : SolrReservesHit) (htl : d.Title ≠ []) (acc : List ReserveItem) :
    instrTags tgt d [t] [(instr, [{ CourseName := cname, CourseID := cid, Items := acc }])]
      = some [(instr, [{ CourseName := cname, CourseID := cid
                         Items := acc ++ [reserveItemTotal d] }])] := by
  unfold instrTags instrStep
  rw [ht]
  simp [hm, toReserveItem_eq d htl, instrAddTag, lookupAssoc, hasCourse, appendToCourse,
    setAssoc, instrTags]

/-- Folding documents that all carry one identical matching tag appends their
items in input order behind the accumulated group. -/
theorem instrDocs_uniform (cid cname instr tgt t : Str)
    (ht : splitPipe t = [cid, cname, instr]) (hm : matchesQuery tgt instr = true) :
    ∀ (docs : List SolrReservesHit), (∀ d ∈ docs, d.ReserveInfo = [t] ∧ d.Title ≠ []) →
      ∀ (acc : List ReserveItem),
        instrDocs tgt docs [(instr, [{ CourseName := cname, CourseID := cid, Items := acc }])]
          = some [(instr, [{ CourseName := cname, CourseID := cid
                             Items := acc ++ docs.map reserveItemTotal }])] := by
  intro docs
  induction docs with
  | nil => intro _ acc; simp [instrDocs]
  | cons d rest ih =>
    intro hd acc
    obtain ⟨hr, htl⟩ := hd d (List.mem_cons_self d rest)
    have h1 := instrTags_single cid cname instr tgt t ht hm d htl acc
    have h2 := ih (fun d2 hd2 => hd d2 (List.mem_cons_of_mem d hd2))
      (acc ++ [reserveItemTotal d])
    simp only [instrDocs, hr, h1, h2, List.map_cons]
    simp [List.append_assoc]

/-- C2 (amended): the grouping fold performs no sorting: for records all
bearing one identical matching tag, the instructor tree holds their items in
input-record order, so a permutation of the input permutes the item list
instead of yielding an identical one. -/
theorem claim_c2_amended (cid cname instr tgt t : Str)
    (ht : splitPipe t = [cid, cname, instr]) (hm : matchesQuery tgt instr = true)
    (d0 : SolrReservesHit) (docs : List SolrReservesHit)
    (hd : ∀ d ∈ d0 :: docs, d.ReserveInfo = [t] ∧ d.Title ≠ []) :
    extractInstructorReserves tgt (d0 :: docs)
      = some [{ InstructorName := instr
                Courses := [{ CourseName := cname, CourseID := cid
                              Items := (d0 :: docs).map reserveItemTotal }] }] := by
  obtain ⟨hr0, htl0⟩ := hd d0 (List.mem_cons_self d0 docs)
  have h0 : instrTags tgt d0 d0.ReserveInfo []
      = some [(instr, [{ CourseName := cname, CourseID := cid
                         Items := [reserveItemTotal d0] }])] := by
    rw [hr0]
    unfold instrTags instrStep
    rw [ht]
    simp [hm, toReserveItem_eq d0 htl0, instrAddTag, lookupAssoc, instrTags]
  have h2 := instrDocs_uniform cid cname instr tgt t ht hm docs
    (fun d2 hd2 => hd d2 (List.mem_cons_of_mem d0 hd2)) [reserveItemTotal d0]
  unfold extractInstructorReserves
  simp only [instrDocs, h0, h2, List.map_cons]
  simp

/-- Witness for C2 at two concrete records sharing the Smith tag: the item
list follows the input order (titles B then A, not sorted). -/
theorem claim_c2_witness :
    extractInstructorReserves [] [dHit1, dHit2]
      = some [{ InstructorName := ("Smith").toList
                Courses := [{ CourseName := ("N").toList, CourseID := ("C1").toList
                              Items := [reserveItemTotal dHit1, reserveItemTotal dHit2] }] }] :=
  claim_c2_amended (("C1").toList) (("N").toList) (("Smith").toList) [] (("C1|N|Smith").toList)
    (by decide) (by decide) dHit1 [dHit2] (by decide)

/-- Counterexample for C2 as stated: permuting the same two records changes
the grouped output of both grouping functions, so the output is neither
sorted nor permutation-invariant. -/
theorem claim_c2_counterexample :
    extractInstructorReserves [] [dHit1, dHit2] ≠ extractInstructorReserves [] [dHit2, dHit1]
    ∧ extractCourseReserves (("course_id").toList) [] [dHit1, dHit2]
        ≠ extractCourseReserves (("course_id").toList) [] [dHit2, dHit1] := by
  decide

/-- C3 (amended): no dedup by record id is performed: a record whose reserve
tag list carries the same matching tag twice contributes its item twice to
the same (course, instructor) group, once per matching tag. -/
theorem claim_c3_amended (cid cname instr tgt t : Str)
    (ht : splitPipe t = [cid, cname, instr]) (hm : matchesQuery tgt instr = true)
    (d : SolrReservesHit) (hr : d.ReserveInfo = [t, t]) (htl : d.Title ≠ []) :
    extractInstructorReserves tgt [d]
      = some [{ InstructorName := instr
                Courses := [{ CourseName := cname, CourseID := cid
                              Items := [reserveItemTotal d, reserveItemTotal d] }] }] := by
  have h0 : instrStep tgt d [] t
      = some [(instr, [{ CourseName := cname, CourseID := cid
                         Items := [reserveItemTotal d] }])] := by
    unfold instrStep
    rw [ht]
    simp [hm, toReserveItem_eq d htl, instrAddTag, lookupAssoc]
  have h1 : instrStep tgt d
        [(instr, [{ CourseName := cname, CourseID := cid, Items := [reserveItemTotal d] }])] t
      = some [(instr, [{ CourseName := cname, CourseID := cid
                         Items := [reserveItemTotal d, reserveItemTotal d] }])] := by
    unfold instrStep
    rw [ht]
    simp [hm, toReserveItem_eq d htl, instrAddTag, lookupAssoc, hasCourse, appendToCourse,
      setAssoc]
  unfold extractInstructorReserves
  simp only [instrDocs, hr, instrTags, h0, h1]
  simp

/-- Witness for C3 at a concrete record carrying the Smith tag twice. -/
theorem claim_c3_witness :
    extractInstructorReserves [] [dHit3]
      = some [{ InstructorName := ("Smith").toList
                Courses := [{ CourseName := ("N").toList, CourseID := ("C1").toList
                              Items := [reserveItemTotal dHit3, reserveItemTotal dHit3] }] }] :=
  claim_c3_amended (("C1").toList) (("N").toList) (("Smith").toList) [] (("C1|N|Smith").toList)
    (by decide) (by decide) dHit3 (by decide) (by decide)

/-- Counterexample for C3 as stated: the duplicated tag yields two item
entries under the pair, not one, in both grouping functions. -/
theorem claim_c3_counterexample :
    (extractInstructorReserves [] [dHit3]).map
        (fun l => l.map (fun r => r.Courses.map (fun c => c.Items.length)))
      = some [[2]]
    ∧ (2 : Nat) ≠ 1
    ∧ (extractCourseReserves (("course_id").toList) [] [dHit3]).map
        (fun l => l.map (fun r => r.Instructors.map (fun c => c.Items.length)))
      = some [[2]] := by
  decide
